import Mathlib

/-!
Verification of the Romanian-subtitles Stremio addon (`src/server.py`).

The file shallowly embeds the scraping-and-aggregation pipeline of
`server.py`: the three site scrapers (`SubtitrariRoScraper`, `SubsRoScraper`,
`TitrariRoScraper`, which differ only in their static configuration), the
per-entry mapping loop of each scraper's `search` method, and the
`get_subtitles` endpoint handler.

Modelling conventions:
* An HTML element matched by one of the `find_all` selector calls is
  abstracted by exactly the observations the Python loop makes of it:
  whether it is an anchor, its `get('href', '')` value, its
  `get_text(strip=True)` value, and — for non-anchor containers — the same
  data for the first nested anchor found by `find('a')` (`none` when there
  is no nested anchor).  An entry whose processing would raise is a
  distinguished constructor, since the loop body is wrapped in
  `try/except: continue`.
* A parsed document is abstracted by the two match lists produced by the
  scraper's two selector strategies (the Python code combines them with
  `or`, i.e. the second list is consulted only when the first is empty).
* The outcome of the `session.get` call is either a status code together
  with the parsed document, or a network/parse failure (any exception
  raised inside the scraper's outer `try`, which the code catches and turns
  into an empty result).
* Python `str.startswith` is rendered on the character-list level
  (`List.isPrefixOf`), which is extensionally the behaviour of Lean's
  `String.startsWith` and is convenient for proofs.
-/

namespace RoSubs

/-- Python `str.startswith(p)`, rendered on the underlying character list. -/
def strStartsWith (s p : String) : Bool :=
  p.data.isPrefixOf s.data

/-- Final record shape appended to the `subtitles` list by every scraper
(`server.py` lines 114-119, 174-179, 234-239). -/
structure SubtitleRecord where
  id : String
  url : String
  lang : String
  title : String
deriving Repr, DecidableEq

/-- An HTML element as observed by the scraper loop body
(`server.py` lines 94-102): an `<a>` tag carries its `get('href', '')`
value and its stripped text; any other matched container carries the
`(href, text)` data of its first nested anchor (`find('a')`), or `none`
when no nested anchor exists; `raising` stands for an entry whose
processing raises (caught by the per-entry `except`). -/
inductive Element where
  | anchor (href : String) (text : String)
  | container (inner : Option (String × String))
  | raising
deriving Repr, DecidableEq

/-- A parsed document, abstracted by the match lists of the scraper's two
selector strategies (the two `find_all` calls combined with `or`,
`server.py` lines 90, 151, 211). -/
structure Document where
  s1 : List Element
  s2 : List Element
deriving Repr, DecidableEq

/-- Outcome of the scraper's `session.get` + `BeautifulSoup` step: either a
status code with the parsed document, or an exception (timeout, connection
error, parse failure) caught by the scraper's outer `except`. -/
inductive FetchOutcome where
  | ok (status : Nat) (doc : Document)
  | err
deriving Repr, DecidableEq

/-- Static per-scraper data: the id tag used in synthesized subtitle ids,
the display name used in the bracketed title marker, the `BASE_URL`, and
the search-path template of the site. -/
structure ScraperConfig where
  tag : String
  displayName : String
  baseUrl : String
  searchPath : String
deriving Repr, DecidableEq

/-- `SubtitrariRoScraper` configuration (`server.py` lines 69-128). -/
def subtitrariCfg : ScraperConfig :=
  { tag := "subtitrari"
    displayName := "subtitrari.ro"
    baseUrl := "https://www.subtitrari.ro"
    searchPath := "/index.php?page=cauta&z7=" }

/-- `SubsRoScraper` configuration (`server.py` lines 130-188). -/
def subsroCfg : ScraperConfig :=
  { tag := "subsro"
    displayName := "subs.ro"
    baseUrl := "https://www.subs.ro"
    searchPath := "/search.php?q=" }

/-- `TitrariRoScraper` configuration (`server.py` lines 190-248). -/
def titrariCfg : ScraperConfig :=
  { tag := "titrari"
    displayName := "titrari.ro"
    baseUrl := "https://www.titrari.ro"
    searchPath := "/index.php?page=cauta&z7=" }

/-- The module-level scraper list (`server.py` lines 251-255), in its fixed
construction order. -/
def scrapers : List ScraperConfig := [subtitrariCfg, subsroCfg, titrariCfg]

/-- The search URL built by each scraper (`server.py` lines 78, 139, 199):
an f-string substituting only the IMDB id. -/
def requestUrl (cfg : ScraperConfig) (imdb_id : String) : String :=
  cfg.baseUrl ++ cfg.searchPath ++ imdb_id

/-- Splits a leading URI scheme from a string, as `urllib.parse` does:
a scheme is a leading alphabetic character followed by alphanumerics,
`+`, `-` or `.`, terminated by `:`. -/
def schemeSplit (url : String) : Option (String × String) :=
  match url.data with
  | [] => none
  | c :: _ =>
    if !c.isAlpha then none
    else
      let isSchemeChar : Char → Bool := fun ch =>
        ch.isAlphanum || ch = '+' || ch = '-' || ch = '.'
      match url.data.dropWhile isSchemeChar with
      | ':' :: r => some (⟨url.data.takeWhile isSchemeChar⟩, ⟨r⟩)
      | _ => none

/-- Scheme of a base URL (empty when the base has none). -/
def baseSchemeStr (base : String) : String :=
  match schemeSplit base with
  | some (sch, _) => sch
  | none => ""

/-- Modelled from Python `urllib.parse.urljoin(base, url)`, restricted to
the way this program calls it: `base` is one of the three configured
absolute `https://host` base URLs (empty path), and `url` never starts
with the literal characters `http` (the caller's guard).  A `url` carrying
its own scheme is returned unchanged (for these calls the scheme always
differs from the base's `https`, apart from case-variant spellings such as
`HTTPS:`, which this model also returns unchanged); a network-path
reference `//...` takes the base's scheme; an absolute path is appended to
the base; any other reference is attached below the base's (empty) path.
Dot-segment and empty-path normalization corners of `urljoin` are not
modelled; no claim depends on them. -/
def urljoin (base url : String) : String :=
  if url = "" then base
  else
    match schemeSplit url with
    | some _ => url
    | none =>
      if strStartsWith url "//" then baseSchemeStr base ++ ":" ++ url
      else if strStartsWith url "/" then base ++ url
      else base ++ "/" ++ url

/-- The URL normalization of the loop body (`server.py` lines 108-109):
`if not link.startswith('http'): link = urljoin(self.BASE_URL, link)`. -/
def makeAbsolute (base link : String) : String :=
  if strStartsWith link "http" then link else urljoin base link

/-- The notion of "absolute URL" used by the specification: the URL names
its own scheme and authority, i.e. begins with `http://` or `https://`
(the only schemes these subtitle sites serve).  This definition follows
the spec's words, to be compared with the code's `makeAbsolute`. -/
def specAbsoluteUrl (s : String) : Bool :=
  strStartsWith s "http://" || strStartsWith s "https://"

/-- The synthesized subtitle id (`server.py` lines 112, 172, 232):
`f"{tag}_{idx}_{imdb_id}"`. -/
def mkId (tag : String) (idx : Nat) (imdb_id : String) : String :=
  tag ++ "_" ++ Nat.repr idx ++ "_" ++ imdb_id

/-- The record appended for one surviving entry (`server.py` lines
114-119): synthesized id, absolutized URL, fixed `lang`, tagged title. -/
def mkRecord (cfg : ScraperConfig) (imdb_id : String) (idx : Nat)
    (link title : String) : SubtitleRecord :=
  { id := mkId cfg.tag idx imdb_id
    url := makeAbsolute cfg.baseUrl link
    lang := "rum"
    title := "[" ++ cfg.displayName ++ "] " ++ title }

/-- The `(link, title)` pair the loop body extracts from one matched
element (`server.py` lines 94-102), `none` when the entry is skipped
before the emptiness check (no nested anchor) or raises. -/
def extractPair (e : Element) : Option (String × String) :=
  match e with
  | .anchor href text => some (href, text)
  | .container inner => inner
  | .raising => none

/-- One iteration of the scraper loop (`server.py` lines 93-123): extract
`(link, title)`, skip the entry when either is empty (`if not link or not
title: continue`), otherwise build the record at the enumerate index. -/
def mapEntry (cfg : ScraperConfig) (imdb_id : String) (idx : Nat)
    (e : Element) : Option SubtitleRecord :=
  match extractPair e with
  | none => none
  | some (link, title) =>
    if link = "" || title = "" then none
    else some (mkRecord cfg imdb_id idx link title)

/-- The `or` of the two `find_all` strategies (`server.py` lines 90, 151,
211): the second match list is used only when the first is empty. -/
def chooseResults (doc : Document) : List Element :=
  if doc.s1.isEmpty then doc.s2 else doc.s1

/-- A scraper's `search` method (`server.py` lines 74-128, identical shape
at lines 135-188 and 195-248): on a fetch/parse exception, the outer
`except` yields the accumulated (empty) list; on a non-200 status an empty
list; otherwise the loop `for idx, result in enumerate(results[:10])`
mapped over the chosen match list.  The `type`, `season`, `episode`
parameters of the Python signature are accepted and ignored. -/
def search (cfg : ScraperConfig) (fetch : FetchOutcome) (imdb_id ty : String)
    (season episode : Option Int) : List SubtitleRecord :=
  match fetch with
  | .err => []
  | .ok status doc =>
    if status ≠ 200 then []
    else
      ((chooseResults doc).take 10).enum.filterMap
        (fun p => mapEntry cfg imdb_id p.1 p.2)

/-- Outcome of one `scraper.search(...)` call as seen by the aggregator
loop (`server.py` lines 290-298): either a returned list or a raised
exception (caught by the loop's `except`, which logs and `continue`s). -/
inductive AdapterOutcome where
  | ok (subs : List SubtitleRecord)
  | raises
deriving Repr, DecidableEq

/-- Results contributed to `all_subtitles` by one loop iteration: the
returned list on success, nothing when the call raised. -/
def AdapterOutcome.toList : AdapterOutcome → List SubtitleRecord
  | .ok subs => subs
  | .raises => []

/-- The aggregator loop (`server.py` lines 287-298): starting from the
empty `all_subtitles`, each iteration `extend`s with the adapter's results
(nothing when the call raised). -/
def aggregate (outcomes : List AdapterOutcome) : List SubtitleRecord :=
  outcomes.foldl (fun acc o => acc ++ o.toList) []

/-- Python `str.split(sep)` for a one-character separator (the handler
calls `id.split(':')`): splits at every occurrence, keeping empty pieces;
on the empty string it yields one empty piece. -/
def splitCharAux (sep : Char) : List Char → List Char → List (List Char)
  | [], acc => [acc.reverse]
  | c :: rest, acc =>
    if c = sep then acc.reverse :: splitCharAux sep rest []
    else splitCharAux sep rest (c :: acc)

/-- Python `str.split(sep)` with a one-character separator. -/
def pySplit (s : String) (sep : Char) : List String :=
  (splitCharAux sep s.data []).map (fun l => ⟨l⟩)

/-- Strips surrounding whitespace, as `int(...)` does before parsing. -/
def stripChars (l : List Char) : List Char :=
  ((l.dropWhile Char.isWhitespace).reverse.dropWhile Char.isWhitespace).reverse

/-- Value of a nonempty all-digit character run; `none` otherwise. -/
def decDigitsAux : List Char → Nat → Option Nat
  | [], acc => some acc
  | c :: rest, acc =>
    if c.isDigit then decDigitsAux rest (acc * 10 + (c.toNat - '0'.toNat))
    else none

/-- Value of a nonempty all-digit character run; `none` otherwise. -/
def decDigits : List Char → Option Nat
  | [] => none
  | l => decDigitsAux l 0

/-- Modelled from Python `int(s)` on a `str` argument: optional surrounding
whitespace, an optional sign, then one or more decimal digits; `none`
where Python raises `ValueError`.  (Underscore digit grouping accepted by
Python is not modelled; no claim depends on it.) -/
def pyInt (s : String) : Option Int :=
  match stripChars s.data with
  | '-' :: rest => (decDigits rest).map (fun n => -(n : Int))
  | '+' :: rest => (decDigits rest).map (fun n => (n : Int))
  | t => (decDigits t).map (fun n => (n : Int))

/-- How a request can fail in `get_subtitles`: the explicit
`HTTPException(status_code=400, ...)` for a bad IMDB id, or an uncaught
exception (the `int(...)` `ValueError`), which the framework surfaces as a
server error. -/
inductive RequestError where
  | invalidId
  | unhandled
deriving Repr, DecidableEq

/-- The `/subtitles/{type}/{id}.json` handler (`server.py` lines 266-302).
`fetch` assigns to each scraper the outcome of its HTTP GET (the request
URL depends only on the scraper and the IMDB id, so this is a function of
the scraper alone for a fixed request).  The handler splits `id` on `:`,
parses season and episode with `int(...)` (uncaught `ValueError` when a
present component is not an integer), then validates the `tt` marker
(HTTP 400 on failure), then runs the aggregation loop over `scrapers`. -/
def get_subtitles (fetch : ScraperConfig → FetchOutcome) (ty idStr : String) :
    Except RequestError (List SubtitleRecord) :=
  let parts := pySplit idStr ':'
  let imdb_id := parts.headD ""
  match (if parts.length > 1 then (pyInt (parts.getD 1 "")).map some
         else some none) with
  | none => .error .unhandled
  | some season =>
    match (if parts.length > 2 then (pyInt (parts.getD 2 "")).map some
           else some none) with
    | none => .error .unhandled
    | some episode =>
      if ¬ strStartsWith imdb_id "tt" then .error .invalidId
      else
        .ok (aggregate (scrapers.map (fun cfg =>
          AdapterOutcome.ok (search cfg (fetch cfg) imdb_id ty season episode))))

/-- A malformed extracted entry, in the words of the specification: missing
or empty link, missing or empty title, a container without a nested
anchor, or an entry whose mapping raises. -/
def malformedEntry (e : Element) : Bool :=
  match e with
  | .raising => true
  | .container none => true
  | .anchor href text => href = "" || text = ""
  | .container (some (href, text)) => href = "" || text = ""

/-- Link observed for an entry (empty for skipped shapes). -/
def linkOf (e : Element) : String := ((extractPair e).getD ("", "")).1

/-- Title observed for an entry (empty for skipped shapes). -/
def titleOf (e : Element) : String := ((extractPair e).getD ("", "")).2

/-- Everything before the first `_` of a synthesized id. -/
def tagOf (s : String) : String :=
  ⟨s.data.takeWhile (fun c => c != '_')⟩

/-- The run between the first and second `_` of a synthesized id. -/
def ordOf (s : String) : String :=
  ⟨((s.data.dropWhile (fun c => c != '_')).drop 1).takeWhile (fun c => c != '_')⟩

/-- The three id tags of the configured scrapers. -/
def idTags : List String := ["subtitrari", "subsro", "titrari"]

theorem strStartsWith_iff (s p : String) :
    strStartsWith s p = true ↔ p.data <+: s.data := by
  simp [strStartsWith]

theorem takeWhile_append_stop {p : Char → Bool} (xs : List Char) (y : Char)
    (ys : List Char) (hxs : ∀ a ∈ xs, p a = true) (hy : p y = false) :
    (xs ++ y :: ys).takeWhile p = xs := by
  induction xs with
  | nil => simp [List.takeWhile_cons, hy]
  | cons a as ih =>
    have ha : p a = true := hxs a (by simp)
    simp only [List.cons_append, List.takeWhile_cons, ha, if_true]
    rw [ih (fun b hb => hxs b (by simp [hb]))]

theorem dropWhile_append_stop {p : Char → Bool} (xs : List Char) (y : Char)
    (ys : List Char) (hxs : ∀ a ∈ xs, p a = true) (hy : p y = false) :
    (xs ++ y :: ys).dropWhile p = y :: ys := by
  induction xs with
  | nil => simp [List.dropWhile_cons, hy]
  | cons a as ih =>
    have ha : p a = true := hxs a (by simp)
    simp only [List.cons_append, List.dropWhile_cons, ha, if_true]
    exact ih (fun b hb => hxs b (by simp [hb]))

theorem mkId_data (tag : String) (i : Nat) (imdb : String) :
    (mkId tag i imdb).data
      = tag.data ++ '_' :: ((Nat.repr i).data ++ '_' :: imdb.data) := by
  simp [mkId]

theorem tagOf_mkId (tag : String) (i : Nat) (imdb : String)
    (h : ∀ c ∈ tag.data, (c != '_') = true) :
    tagOf (mkId tag i imdb) = tag := by
  unfold tagOf
  rw [mkId_data, takeWhile_append_stop tag.data '_' _ h (by simp)]

theorem ordOf_mkId (tag : String) (i : Nat) (imdb : String)
    (htag : ∀ c ∈ tag.data, (c != '_') = true)
    (hrep : ∀ c ∈ (Nat.repr i).data, (c != '_') = true) :
    ordOf (mkId tag i imdb) = Nat.repr i := by
  unfold ordOf
  rw [mkId_data, dropWhile_append_stop tag.data '_' _ htag (by simp),
    List.drop_one, List.tail_cons,
    takeWhile_append_stop (Nat.repr i).data '_' _ hrep (by simp)]

theorem idTags_no_underscore :
    ∀ t ∈ idTags, ∀ c ∈ t.data, (c != '_') = true := by decide

theorem repr_no_underscore_lt10 :
    ∀ i : Fin 10, ∀ c ∈ (Nat.repr i.val).data, (c != '_') = true := by decide

theorem repr_inj_lt10 :
    ∀ i j : Fin 10, Nat.repr i.val = Nat.repr j.val → i = j := by decide

theorem mkId_inj {tag1 tag2 : String} {i j : Nat} {imdb : String}
    (h1 : tag1 ∈ idTags) (h2 : tag2 ∈ idTags) (hi : i < 10) (hj : j < 10)
    (h : mkId tag1 i imdb = mkId tag2 j imdb) : tag1 = tag2 ∧ i = j := by
  have htag := congrArg tagOf h
  rw [tagOf_mkId tag1 i imdb (idTags_no_underscore tag1 h1),
    tagOf_mkId tag2 j imdb (idTags_no_underscore tag2 h2)] at htag
  have hord := congrArg ordOf h
  rw [ordOf_mkId tag1 i imdb (idTags_no_underscore tag1 h1)
      (repr_no_underscore_lt10 ⟨i, hi⟩),
    ordOf_mkId tag2 j imdb (idTags_no_underscore tag2 h2)
      (repr_no_underscore_lt10 ⟨j, hj⟩)] at hord
  have hfin := repr_inj_lt10 ⟨i, hi⟩ ⟨j, hj⟩ hord
  exact ⟨htag, congrArg Fin.val hfin⟩

theorem mapEntry_eq (cfg : ScraperConfig) (imdb : String) (idx : Nat)
    (e : Element) :
    mapEntry cfg imdb idx e
      = if malformedEntry e then none
        else some (mkRecord cfg imdb idx (linkOf e) (titleOf e)) := by
  cases e with
  | anchor href text =>
    by_cases hh : href = "" <;> by_cases ht : text = "" <;>
      simp [mapEntry, extractPair, malformedEntry, linkOf, titleOf, hh, ht]
  | container inner =>
    cases inner with
    | none => simp [mapEntry, extractPair, malformedEntry]
    | some pr =>
      obtain ⟨href, text⟩ := pr
      by_cases hh : href = "" <;> by_cases ht : text = "" <;>
        simp [mapEntry, extractPair, malformedEntry, linkOf, titleOf, hh, ht]
  | raising => simp [mapEntry, extractPair, malformedEntry]

theorem mapEntry_eq_some {cfg : ScraperConfig} {imdb : String} {idx : Nat}
    {e : Element} {r : SubtitleRecord}
    (h : mapEntry cfg imdb idx e = some r) :
    r = mkRecord cfg imdb idx (linkOf e) (titleOf e) := by
  rw [mapEntry_eq] at h
  by_cases hm : malformedEntry e
  · simp [hm] at h
  · simp [hm] at h
    exact h.symm

theorem mem_enumFrom_bounds {α : Type} (l : List α) (n : Nat) (q : Nat × α)
    (h : q ∈ l.enumFrom n) : n ≤ q.1 ∧ q.1 < n + l.length := by
  induction l generalizing n with
  | nil => simp [List.enumFrom] at h
  | cons a as ih =>
    rw [List.enumFrom_cons] at h
    rcases List.mem_cons.mp h with h | h
    · subst h
      simp
    · have := ih (n + 1) h
      constructor
      · omega
      · simp only [List.length_cons]
        omega

theorem mem_search_shape {cfg : ScraperConfig} {fetch : FetchOutcome}
    {imdb ty : String} {se ep : Option Int} {r : SubtitleRecord}
    (h : r ∈ search cfg fetch imdb ty se ep) :
    ∃ i, i < 10 ∧ ∃ e : Element,
      ¬ malformedEntry e ∧ r = mkRecord cfg imdb i (linkOf e) (titleOf e) := by
  cases fetch with
  | err => simp [search] at h
  | ok status doc =>
    simp only [search] at h
    split at h
    · simp at h
    · rcases List.mem_filterMap.mp h with ⟨⟨i, e⟩, hmem, hme⟩
      have hb := mem_enumFrom_bounds ((chooseResults doc).take 10) 0 (i, e)
        (by rw [← List.enum_eq_enumFrom]; exact hmem)
      have hlen : ((chooseResults doc).take 10).length ≤ 10 :=
        (chooseResults doc).length_take_le 10
      refine ⟨i, by omega, e, ?_, mapEntry_eq_some hme⟩
      intro hmal
      rw [mapEntry_eq] at hme
      simp [hmal] at hme

theorem search_id_of_mem {cfg : ScraperConfig} {fetch : FetchOutcome}
    {imdb ty : String} {se ep : Option Int} {r : SubtitleRecord}
    (h : r ∈ search cfg fetch imdb ty se ep) :
    ∃ i, i < 10 ∧ r.id = mkId cfg.tag i imdb := by
  rcases mem_search_shape h with ⟨i, hi, e, _, hr⟩
  exact ⟨i, hi, by rw [hr]; rfl⟩

theorem mapEntry_id_of_some {cfg : ScraperConfig} {imdb : String} {idx : Nat}
    {e : Element} {r : SubtitleRecord}
    (h : mapEntry cfg imdb idx e = some r) : r.id = mkId cfg.tag idx imdb := by
  rw [mapEntry_eq_some h]; rfl

theorem ids_nodup_enumFrom (cfg : ScraperConfig) (imdb : String)
    (htag : cfg.tag ∈ idTags) :
    ∀ (l : List Element) (n : Nat), n + l.length ≤ 10 →
      (((l.enumFrom n).filterMap
          (fun p => mapEntry cfg imdb p.1 p.2)).map SubtitleRecord.id).Nodup := by
  intro l
  induction l with
  | nil =>
    intro n _
    simp [List.enumFrom]
  | cons e es ih =>
    intro n hle
    have hlen : n + es.length + 1 ≤ 10 := by
      simpa [Nat.add_comm, Nat.add_assoc] using hle
    rw [List.enumFrom_cons]
    cases hme : mapEntry cfg imdb n e with
    | none =>
      simp only [List.filterMap_cons, hme]
      exact ih (n + 1) (by omega)
    | some r =>
      simp only [List.filterMap_cons, hme, List.map_cons, List.nodup_cons]
      refine ⟨?_, ih (n + 1) (by omega)⟩
      intro hmem
      rcases List.mem_map.mp hmem with ⟨r', hr', hid⟩
      rcases List.mem_filterMap.mp hr' with ⟨⟨j, e'⟩, hjmem, hje⟩
      have hj := mem_enumFrom_bounds es (n + 1) (j, e') hjmem
      have h1 : r.id = mkId cfg.tag n imdb := mapEntry_id_of_some hme
      have h2 : r'.id = mkId cfg.tag j imdb := mapEntry_id_of_some hje
      have heq : mkId cfg.tag j imdb = mkId cfg.tag n imdb := by
        rw [← h1, ← h2, hid]
      have := mkId_inj htag htag (by omega) (by omega) heq
      omega

theorem search_ids_nodup (cfg : ScraperConfig) (fetch : FetchOutcome)
    (imdb ty : String) (se ep : Option Int) (htag : cfg.tag ∈ idTags) :
    ((search cfg fetch imdb ty se ep).map SubtitleRecord.id).Nodup := by
  cases fetch with
  | err => simp [search]
  | ok status doc =>
    simp only [search]
    split
    · simp
    · rw [List.enum_eq_enumFrom]
      exact ids_nodup_enumFrom cfg imdb htag ((chooseResults doc).take 10) 0
        (by simpa using (chooseResults doc).length_take_le 10)

theorem search_ids_disjoint (cfg1 cfg2 : ScraperConfig)
    (f1 f2 : FetchOutcome) (imdb ty : String) (se ep : Option Int)
    (h1 : cfg1.tag ∈ idTags) (h2 : cfg2.tag ∈ idTags)
    (hne : cfg1.tag ≠ cfg2.tag) :
    List.Disjoint ((search cfg1 f1 imdb ty se ep).map SubtitleRecord.id)
      ((search cfg2 f2 imdb ty se ep).map SubtitleRecord.id) := by
  intro x hx1 hx2
  rcases List.mem_map.mp hx1 with ⟨r1, hr1, hid1⟩
  rcases List.mem_map.mp hx2 with ⟨r2, hr2, hid2⟩
  rcases search_id_of_mem hr1 with ⟨i, hi, hi1⟩
  rcases search_id_of_mem hr2 with ⟨j, hj, hi2⟩
  have heq : mkId cfg1.tag i imdb = mkId cfg2.tag j imdb := by
    rw [← hi1, ← hi2, hid1, hid2]
  exact hne (mkId_inj h1 h2 hi hj heq).1

theorem aggregate_eq_join (outs : List AdapterOutcome) :
    aggregate outs = (outs.map AdapterOutcome.toList).flatten := by
  suffices h : ∀ (acc : List SubtitleRecord),
      outs.foldl (fun acc o => acc ++ o.toList) acc
        = acc ++ (outs.map AdapterOutcome.toList).flatten by
    simpa using h []
  induction outs with
  | nil => intro acc; simp
  | cons o os ih =>
    intro acc
    simp [List.foldl_cons, ih, List.append_assoc]

theorem get_subtitles_ok_shape {fetch : ScraperConfig → FetchOutcome}
    {ty idStr : String} {subs : List SubtitleRecord}
    (h : get_subtitles fetch ty idStr = .ok subs) :
    ∃ season episode : Option Int,
      subs = search subtitrariCfg (fetch subtitrariCfg)
               ((pySplit idStr ':').headD "") ty season episode
          ++ (search subsroCfg (fetch subsroCfg)
               ((pySplit idStr ':').headD "") ty season episode
          ++ search titrariCfg (fetch titrariCfg)
               ((pySplit idStr ':').headD "") ty season episode) := by
  simp only [get_subtitles] at h
  split at h
  · cases h
  · rename_i season hseason
    split at h
    · cases h
    · rename_i episode hepisode
      split at h
      · cases h
      · injection h with hsubs
        refine ⟨season, episode, ?_⟩
        rw [← hsubs, aggregate_eq_join]
        simp [scrapers, AdapterOutcome.toList]

theorem filterMap_mapEntry_eq_filter (cfg : ScraperConfig) (imdb : String) :
    ∀ l : List (Nat × Element),
      l.filterMap (fun p => mapEntry cfg imdb p.1 p.2)
        = (l.filter (fun p => !malformedEntry p.2)).map
            (fun p => mkRecord cfg imdb p.1 (linkOf p.2) (titleOf p.2)) := by
  intro l
  induction l with
  | nil => rfl
  | cons q qs ih =>
    obtain ⟨i, e⟩ := q
    have hhead := mapEntry_eq cfg imdb i e
    by_cases hm : malformedEntry e
    · simp [List.filterMap_cons, List.filter_cons, hhead, hm, ih]
    · simp [List.filterMap_cons, List.filter_cons, hhead, hm, ih]

theorem strStartsWith_of_data_eq (p s : String) (t : List Char)
    (h : s.data = p.data ++ t) : strStartsWith s p = true := by
  rw [strStartsWith_iff, h]
  exact ⟨t, rfl⟩

theorem strStartsWith_trans {s p q : String}
    (h1 : strStartsWith s p = true) (h2 : strStartsWith p q = true) :
    strStartsWith s q = true := by
  rw [strStartsWith_iff] at h1 h2 ⊢
  exact h2.trans h1

theorem specAbsoluteUrl_startsWith_http {link : String}
    (h : specAbsoluteUrl link = true) : strStartsWith link "http" = true := by
  rw [specAbsoluteUrl, Bool.or_eq_true] at h
  rcases h with h | h
  · exact strStartsWith_trans h (by decide)
  · exact strStartsWith_trans h (by decide)

theorem urljoin_absolute_of_https_base (base link : String)
    (hbase : ∃ t : List Char, base.data = "https://".data ++ t)
    (hscheme1 : baseSchemeStr base = "https")
    (hschemeLink : schemeSplit link = none) :
    specAbsoluteUrl (urljoin base link) = true := by
  obtain ⟨tb, htb⟩ := hbase
  have habs_base : specAbsoluteUrl base = true := by
    rw [specAbsoluteUrl, Bool.or_eq_true]
    exact Or.inr (strStartsWith_of_data_eq _ _ tb htb)
  by_cases hempty : link = ""
  · simp [urljoin, hempty, habs_base]
  · rw [urljoin, if_neg hempty, hschemeLink]
    by_cases h2 : strStartsWith link "//"
    · rw [if_pos h2, hscheme1]
      obtain ⟨t, ht⟩ := (strStartsWith_iff link "//").mp h2
      rw [specAbsoluteUrl, Bool.or_eq_true]
      refine Or.inr (strStartsWith_of_data_eq _ _ t ?_)
      simp only [String.data_append]
      rw [← ht]
      rfl
    · rw [if_neg h2]
      by_cases h3 : strStartsWith link "/"
      · rw [if_pos h3]
        rw [specAbsoluteUrl, Bool.or_eq_true]
        refine Or.inr (strStartsWith_of_data_eq _ _ (tb ++ link.data) ?_)
        simp [htb]
      · rw [if_neg h3]
        rw [specAbsoluteUrl, Bool.or_eq_true]
        refine Or.inr (strStartsWith_of_data_eq _ _ ((tb ++ ['/']) ++ link.data) ?_)
        simp [htb]

theorem search_record_props {cfg : ScraperConfig} {fetch : FetchOutcome}
    {imdb ty : String} {se ep : Option Int} {r : SubtitleRecord}
    (h : r ∈ search cfg fetch imdb ty se ep) :
    r.lang = "rum"
    ∧ (∃ rest : String, r.title = "[" ++ cfg.displayName ++ "] " ++ rest)
    ∧ ∃ i : Nat, i < 10 ∧ r.id = mkId cfg.tag i imdb := by
  rcases mem_search_shape h with ⟨i, hi, e, _, hr⟩
  subst hr
  exact ⟨rfl, ⟨titleOf e, rfl⟩, i, hi, rfl⟩

/-- A fixture document with one well-formed anchor. -/
def docW : Document := ⟨[Element.anchor "/x" "A"], []⟩

/-- A fixture world: every scraper's fetch succeeds with `docW`. -/
def fetchW : ScraperConfig → FetchOutcome := fun _ => .ok 200 docW

/-- The response produced by `get_subtitles` in the `fetchW` world for
`tt1`. -/
def subsW : List SubtitleRecord :=
  [{ id := "subtitrari_0_tt1", url := "https://www.subtitrari.ro/x",
     lang := "rum", title := "[subtitrari.ro] A" },
   { id := "subsro_0_tt1", url := "https://www.subs.ro/x",
     lang := "rum", title := "[subs.ro] A" },
   { id := "titrari_0_tt1", url := "https://www.titrari.ro/x",
     lang := "rum", title := "[titrari.ro] A" }]

/-- A fixture document whose first ten entries are all malformed (empty
link), followed by one well-formed anchor. -/
def badTenDoc : Document :=
  ⟨List.replicate 10 (Element.anchor "" "x") ++ [Element.anchor "/a" "T"], []⟩

/-- A fixture document with a single anchor whose link starts with the
characters `http` without being an absolute URL. -/
def httpxDoc : Document := ⟨[Element.anchor "httpx" "T"], []⟩

/-- C2: for every adapter and every input — a fetch returning HTTP 500 or
any non-200 status, a network timeout, or an unparseable body — the
adapter's `search` never raises: it is a total function, all failures are
represented by the fetch outcome, and the result is the empty list for
that adapter. -/
theorem search_swallows_failures :
    ∀ (cfg : ScraperConfig) (imdb ty : String) (se ep : Option Int)
      (status : Nat) (doc : Document),
      search cfg .err imdb ty se ep = []
      ∧ (status ≠ 200 → search cfg (.ok status doc) imdb ty se ep = []) := by
  intro cfg imdb ty se ep status doc
  exact ⟨rfl, fun h => by simp [search, h]⟩

/-- Witness for C2 at a concrete input: an HTTP 500 response yields an
empty list. -/
theorem search_swallows_failures_witness :
    search subtitrariCfg .err "tt0111161" "movie" none none = []
    ∧ search subtitrariCfg (.ok 500 docW) "tt0111161" "movie" none none = [] :=
  ⟨(search_swallows_failures subtitrariCfg "tt0111161" "movie" none none 500 docW).1,
   (search_swallows_failures subtitrariCfg "tt0111161" "movie" none none 500 docW).2
     (by decide)⟩

/-- C4: for every adapter and every source document, regardless of how
many raw matches the document contains, `search` returns at most 10
results. -/
theorem search_length_le_ten :
    ∀ (cfg : ScraperConfig) (fetch : FetchOutcome) (imdb ty : String)
      (se ep : Option Int),
      (search cfg fetch imdb ty se ep).length ≤ 10 := by
  intro cfg fetch imdb ty se ep
  cases fetch with
  | err => simp [search]
  | ok status doc =>
    simp only [search]
    split
    · simp
    · have h1 := List.length_filterMap_le
        (fun p : Nat × Element => mapEntry cfg imdb p.1 p.2)
        ((chooseResults doc).take 10).enum
      have h2 : ((chooseResults doc).take 10).enum.length
          = ((chooseResults doc).take 10).length := List.enum_length
      have h3 := (chooseResults doc).length_take_le 10
      omega

/-- C8: the two extraction strategies are evaluated in order and the first
non-empty match set wins: with a non-empty first strategy the chosen
results are exactly the first strategy's matches, and the search result
does not depend on the second strategy's matches at all. -/
theorem first_strategy_wins :
    ∀ (cfg : ScraperConfig) (imdb ty : String) (se ep : Option Int)
      (status : Nat) (s1 s2 s2' : List Element),
      s1 ≠ [] →
      chooseResults ⟨s1, s2⟩ = s1
      ∧ search cfg (.ok status ⟨s1, s2⟩) imdb ty se ep
          = search cfg (.ok status ⟨s1, s2'⟩) imdb ty se ep := by
  intro cfg imdb ty se ep status s1 s2 s2' h
  have hc : ∀ x : List Element, chooseResults ⟨s1, x⟩ = s1 := by
    intro x
    cases s1 with
    | nil => exact absurd rfl h
    | cons a as => simp [chooseResults, List.isEmpty]
  exact ⟨hc s2, by simp only [search, hc]⟩

/-- Witness for C8 at a concrete input: a non-empty first strategy makes
the fallback matches irrelevant. -/
theorem first_strategy_wins_witness :
    chooseResults ⟨[Element.anchor "/a" "T"], [Element.anchor "/b" "B"]⟩
      = [Element.anchor "/a" "T"]
    ∧ search subtitrariCfg
        (.ok 200 ⟨[Element.anchor "/a" "T"], [Element.anchor "/b" "B"]⟩)
        "tt1" "movie" none none
      = search subtitrariCfg (.ok 200 ⟨[Element.anchor "/a" "T"], []⟩)
        "tt1" "movie" none none :=
  first_strategy_wins subtitrariCfg "tt1" "movie" none none 200
    [Element.anchor "/a" "T"] [Element.anchor "/b" "B"] [] (by decide)

/-- C9: for fixed imdb id, type and fetched document, `search` returns the
identical list for all season/episode values (the Python signature accepts
them, the body never reads them, and the request URL `requestUrl` is a
function of the scraper configuration and the imdb id alone). -/
theorem season_episode_never_influence :
    ∀ (cfg : ScraperConfig) (fetch : FetchOutcome) (imdb ty : String)
      (se ep se' ep' : Option Int),
      search cfg fetch imdb ty se ep = search cfg fetch imdb ty se' ep'
      ∧ requestUrl cfg imdb = cfg.baseUrl ++ cfg.searchPath ++ imdb :=
  fun _ _ _ _ _ _ _ _ => ⟨rfl, rfl⟩

/-- C10: the season/episode parse of `get_subtitles` runs before the `tt`
validation: for the identifier `tt123:abc` — whose leading component does
start with `tt` — `int("abc")` raises an uncaught `ValueError`, so the
request fails with the unhandled server error rather than the 400 client
error, for every world and content type. -/
theorem season_parse_precedes_validation :
    ∀ (fetch : ScraperConfig → FetchOutcome) (ty : String),
      strStartsWith ((pySplit "tt123:abc" ':').headD "") "tt" = true
      ∧ get_subtitles fetch ty "tt123:abc" = .error .unhandled
      ∧ get_subtitles fetch ty "tt123:abc" ≠ .error .invalidId := by
  intro fetch ty
  refine ⟨by decide, rfl, ?_⟩
  intro h
  rw [show get_subtitles fetch ty "tt123:abc"
      = Except.error RequestError.unhandled from rfl] at h
  exact absurd (Except.error.inj h) (by decide)

/-- C1: the aggregator walks the configured adapter list in its fixed
order, concatenating the outcomes' lists in that order with no
deduplication or reordering; a raising adapter contributes zero results
while later adapters still contribute; and the configured list is
(subtitrari.ro, subs.ro, titrari.ro), so a successful response is the
in-order concatenation of the three scrapers' outputs. -/
theorem aggregator_fixed_order_concat_isolation :
    (∀ (outs : List AdapterOutcome),
        aggregate outs = (outs.map AdapterOutcome.toList).flatten)
    ∧ (∀ (pre post : List AdapterOutcome),
        aggregate (pre ++ AdapterOutcome.raises :: post)
          = aggregate pre ++ aggregate post)
    ∧ scrapers = [subtitrariCfg, subsroCfg, titrariCfg]
    ∧ (∀ (fetch : ScraperConfig → FetchOutcome) (ty idStr : String)
        (subs : List SubtitleRecord),
        get_subtitles fetch ty idStr = .ok subs →
        ∃ season episode : Option Int,
          subs = search subtitrariCfg (fetch subtitrariCfg)
                   ((pySplit idStr ':').headD "") ty season episode
              ++ (search subsroCfg (fetch subsroCfg)
                   ((pySplit idStr ':').headD "") ty season episode
              ++ search titrariCfg (fetch titrariCfg)
                   ((pySplit idStr ':').headD "") ty season episode)) := by
  refine ⟨aggregate_eq_join, ?_, rfl,
    fun fetch ty idStr subs h => get_subtitles_ok_shape h⟩
  intro pre post
  rw [aggregate_eq_join, aggregate_eq_join, aggregate_eq_join]
  simp [AdapterOutcome.toList]

/-- Witness for C1 at a concrete world: a valid request decomposes into
the three scrapers' outputs in configured order. -/
theorem aggregator_fixed_order_concat_isolation_witness :
    ∃ season episode : Option Int,
      subsW = search subtitrariCfg (fetchW subtitrariCfg)
                ((pySplit "tt1" ':').headD "") "movie" season episode
          ++ (search subsroCfg (fetchW subsroCfg)
                ((pySplit "tt1" ':').headD "") "movie" season episode
          ++ search titrariCfg (fetchW titrariCfg)
                ((pySplit "tt1" ':').headD "") "movie" season episode) :=
  aggregator_fixed_order_concat_isolation.2.2.2 fetchW "movie" "tt1" subsW rfl

/-- C3 counterexample: for the identifier `abc:x` the leading component
does not start with `tt`, yet the request does not fail with the 400
`InvalidIdentifier` error: the `int("x")` season parse raises first and
the request fails with the unhandled server error. -/
theorem invalid_id_not_always_400 :
    strStartsWith ((pySplit "abc:x" ':').headD "") "tt" = false
    ∧ get_subtitles (fun _ => FetchOutcome.err) "movie" "abc:x"
        = .error .unhandled
    ∧ get_subtitles (fun _ => FetchOutcome.err) "movie" "abc:x"
        ≠ .error .invalidId := by
  refine ⟨by decide, rfl, ?_⟩
  intro h
  rw [show get_subtitles (fun _ => FetchOutcome.err) "movie" "abc:x"
      = Except.error RequestError.unhandled from rfl] at h
  exact absurd (Except.error.inj h) (by decide)

/-- C3 (amended): for every request identifier whose leading
colon-separated component does not start with `tt` and whose second and
third components, when present, parse as integers, the endpoint fails
with the 400 `InvalidIdentifier` error, and the outcome is independent of
the world and of the content type — no adapter is invoked and no network
call is made. -/
theorem invalid_id_400_when_components_numeric :
    ∀ (fetch fetch' : ScraperConfig → FetchOutcome) (ty ty' idStr : String),
      strStartsWith ((pySplit idStr ':').headD "") "tt" = false →
      ((pySplit idStr ':').length > 1 →
        (pyInt ((pySplit idStr ':').getD 1 "")).isSome = true) →
      ((pySplit idStr ':').length > 2 →
        (pyInt ((pySplit idStr ':').getD 2 "")).isSome = true) →
      get_subtitles fetch ty idStr = .error .invalidId
      ∧ get_subtitles fetch ty idStr = get_subtitles fetch' ty' idStr := by
  intro fetch fetch' ty ty' idStr htt h1 h2
  have key : ∀ (f : ScraperConfig → FetchOutcome) (t : String),
      get_subtitles f t idStr = .error .invalidId := by
    intro f t
    have hs1 : ∃ s : Option Int,
        (if (pySplit idStr ':').length > 1
          then Option.map some (pyInt ((pySplit idStr ':').getD 1 ""))
          else some none) = some s := by
      by_cases hl1 : (pySplit idStr ':').length > 1
      · obtain ⟨n1, hn1⟩ := Option.isSome_iff_exists.mp (h1 hl1)
        exact ⟨some n1, by rw [if_pos hl1, hn1]; rfl⟩
      · exact ⟨none, by rw [if_neg hl1]⟩
    have hs2 : ∃ s : Option Int,
        (if (pySplit idStr ':').length > 2
          then Option.map some (pyInt ((pySplit idStr ':').getD 2 ""))
          else some none) = some s := by
      by_cases hl2 : (pySplit idStr ':').length > 2
      · obtain ⟨n2, hn2⟩ := Option.isSome_iff_exists.mp (h2 hl2)
        exact ⟨some n2, by rw [if_pos hl2, hn2]; rfl⟩
      · exact ⟨none, by rw [if_neg hl2]⟩
    obtain ⟨s1, hs1⟩ := hs1
    obtain ⟨s2, hs2⟩ := hs2
    simp only [get_subtitles, hs1, hs2]
    rw [if_pos (show ¬ strStartsWith ((pySplit idStr ':').headD "") "tt" = true
      by rw [htt]; simp)]
  exact ⟨key fetch ty, (key fetch ty).trans (key fetch' ty').symm⟩

/-- Witness for C3 (amended) at a concrete input: `abc:1` is rejected
with the 400 error, independently of the world. -/
theorem invalid_id_400_when_components_numeric_witness :
    get_subtitles (fun _ => FetchOutcome.err) "movie" "abc:1"
      = .error .invalidId
    ∧ get_subtitles (fun _ => FetchOutcome.err) "movie" "abc:1"
        = get_subtitles fetchW "series" "abc:1" :=
  invalid_id_400_when_components_numeric (fun _ => FetchOutcome.err) fetchW
    "movie" "series" "abc:1" (by decide) (by decide) (by decide)

/-- C5 counterexample: a document whose first ten extracted entries are
all malformed followed by one valid entry: the valid entry is dropped by
the 10-entry cap (applied before validity filtering), so not every valid
entry of the document is returned. -/
theorem valid_entry_beyond_cap_dropped :
    malformedEntry (Element.anchor "/a" "T") = false
    ∧ Element.anchor "/a" "T" ∈ chooseResults badTenDoc
    ∧ search subtitrariCfg (.ok 200 badTenDoc) "tt1" "movie" none none = [] :=
  ⟨by decide, by decide, rfl⟩

/-- C5 (amended): an entry is mapped to a record exactly when it is not
malformed, and within the first 10 extracted entries (the cap is applied
before validity filtering) the search result is exactly the well-formed
entries, in their original relative order, each mapped to its record;
malformed entries among the first 10 are dropped, and any entry beyond
the 10th — valid or not — is dropped by the cap. -/
theorem valid_entries_within_cap_kept :
    ∀ (cfg : ScraperConfig) (doc : Document) (imdb ty : String)
      (se ep : Option Int),
      (∀ (idx : Nat) (e : Element),
          (mapEntry cfg imdb idx e).isSome = !malformedEntry e)
      ∧ search cfg (.ok 200 doc) imdb ty se ep
          = (((chooseResults doc).take 10).enum.filter
                (fun p => !malformedEntry p.2)).map
              (fun p => mkRecord cfg imdb p.1 (linkOf p.2) (titleOf p.2)) := by
  intro cfg doc imdb ty se ep
  constructor
  · intro idx e
    rw [mapEntry_eq]
    by_cases hm : malformedEntry e <;> simp [hm]
  · simp only [search]
    rw [if_neg (by omega)]
    exact filterMap_mapEntry_eq_filter cfg imdb _

/-- C6: every record of a successful response has `lang = "rum"`, a title
carrying the bracketed source-name marker, and an id of the form
`tag_ordinal_imdbId` for one of the configured scrapers; and the ids are
pairwise distinct within the response. -/
theorem response_record_invariants :
    ∀ (fetch : ScraperConfig → FetchOutcome) (ty idStr : String)
      (subs : List SubtitleRecord),
      get_subtitles fetch ty idStr = .ok subs →
      (∀ r ∈ subs,
          r.lang = "rum"
          ∧ (∃ cfg ∈ scrapers, ∃ rest : String,
              r.title = "[" ++ cfg.displayName ++ "] " ++ rest)
          ∧ (∃ cfg ∈ scrapers, ∃ i : Nat, i < 10
              ∧ r.id = mkId cfg.tag i ((pySplit idStr ':').headD "")))
      ∧ (subs.map SubtitleRecord.id).Nodup := by
  intro fetch ty idStr subs h
  rcases get_subtitles_ok_shape h with ⟨season, episode, hsubs⟩
  subst hsubs
  constructor
  · intro r hr
    rcases List.mem_append.mp hr with hr1 | hr23
    · rcases search_record_props hr1 with ⟨hl, ⟨rest, ht⟩, i, hi, hid⟩
      exact ⟨hl, ⟨subtitrariCfg, by decide, rest, ht⟩,
        ⟨subtitrariCfg, by decide, i, hi, hid⟩⟩
    · rcases List.mem_append.mp hr23 with hr2 | hr3
      · rcases search_record_props hr2 with ⟨hl, ⟨rest, ht⟩, i, hi, hid⟩
        exact ⟨hl, ⟨subsroCfg, by decide, rest, ht⟩,
          ⟨subsroCfg, by decide, i, hi, hid⟩⟩
      · rcases search_record_props hr3 with ⟨hl, ⟨rest, ht⟩, i, hi, hid⟩
        exact ⟨hl, ⟨titrariCfg, by decide, rest, ht⟩,
          ⟨titrariCfg, by decide, i, hi, hid⟩⟩
  · rw [List.map_append, List.map_append]
    refine List.Nodup.append
      (search_ids_nodup _ _ _ _ _ _ (by decide))
      (List.Nodup.append
        (search_ids_nodup _ _ _ _ _ _ (by decide))
        (search_ids_nodup _ _ _ _ _ _ (by decide))
        (search_ids_disjoint subsroCfg titrariCfg _ _ _ _ _ _
          (by decide) (by decide) (by decide)))
      ?_
    intro x hxA hx
    rcases List.mem_append.mp hx with hxB | hxC
    · exact search_ids_disjoint subtitrariCfg subsroCfg _ _ _ _ _ _
        (by decide) (by decide) (by decide) hxA hxB
    · exact search_ids_disjoint subtitrariCfg titrariCfg _ _ _ _ _ _
        (by decide) (by decide) (by decide) hxA hxC

/-- Witness for C6 at a concrete world: the three-record response for
`tt1` satisfies the record invariants and id uniqueness. -/
theorem response_record_invariants_witness :
    (∀ r ∈ subsW,
        r.lang = "rum"
        ∧ (∃ cfg ∈ scrapers, ∃ rest : String,
            r.title = "[" ++ cfg.displayName ++ "] " ++ rest)
        ∧ (∃ cfg ∈ scrapers, ∃ i : Nat, i < 10
            ∧ r.id = mkId cfg.tag i ((pySplit "tt1" ':').headD "")))
    ∧ (subsW.map SubtitleRecord.id).Nodup :=
  response_record_invariants fetchW "movie" "tt1" subsW rfl

/-- C7 counterexample: the raw link `httpx` is not an absolute URL, yet it
is not resolved against the base URL (because it starts with the
characters `http`): the produced record keeps `httpx` as its url, so not
every record url is absolute. -/
theorem url_not_absolute_on_http_marker :
    (search subtitrariCfg (.ok 200 httpxDoc) "tt1" "movie" none none).map
        SubtitleRecord.url = ["httpx"]
    ∧ specAbsoluteUrl "httpx" = false
    ∧ urljoin subtitrariCfg.baseUrl "httpx" ≠ "httpx"
    ∧ strStartsWith "httpx" "http" = true :=
  ⟨rfl, by decide, by decide, by decide⟩

/-- C7 (amended): a record's url is always `makeAbsolute` of its raw
link; a link starting with the characters `http` — in particular every
absolute http(s) link — is kept unchanged; any other link is resolved
with `urljoin` against the adapter's base URL, and when such a link
carries no scheme of its own the result is absolute.  (A link starting
with `http` without being absolute, such as `httpx`, is kept unchanged
and stays non-absolute.) -/
theorem url_resolution_behavior :
    (∀ (cfg : ScraperConfig) (imdb : String) (idx : Nat) (e : Element)
        (r : SubtitleRecord),
        mapEntry cfg imdb idx e = some r →
        r.url = makeAbsolute cfg.baseUrl (linkOf e))
    ∧ (∀ base link : String, specAbsoluteUrl link = true →
        makeAbsolute base link = link)
    ∧ (∀ base link : String, strStartsWith link "http" = false →
        makeAbsolute base link = urljoin base link)
    ∧ (∀ cfg ∈ scrapers, ∀ link : String,
        strStartsWith link "http" = false → schemeSplit link = none →
        specAbsoluteUrl (makeAbsolute cfg.baseUrl link) = true) := by
  refine ⟨?_, ?_, ?_, ?_⟩
  · intro cfg imdb idx e r h
    rw [mapEntry_eq_some h]
    rfl
  · intro base link h
    rw [makeAbsolute, if_pos (specAbsoluteUrl_startsWith_http h)]
  · intro base link h
    rw [makeAbsolute, if_neg (by simp [h])]
  · intro cfg hcfg link hhttp hscheme
    rw [makeAbsolute, if_neg (by simp [hhttp])]
    simp only [scrapers, List.mem_cons, List.not_mem_nil, or_false] at hcfg
    rcases hcfg with rfl | rfl | rfl
    · exact urljoin_absolute_of_https_base _ _
        ⟨"www.subtitrari.ro".data, rfl⟩ rfl hscheme
    · exact urljoin_absolute_of_https_base _ _
        ⟨"www.subs.ro".data, rfl⟩ rfl hscheme
    · exact urljoin_absolute_of_https_base _ _
        ⟨"www.titrari.ro".data, rfl⟩ rfl hscheme

/-- Witness for C7 (amended) at concrete inputs: a record's url is the
normalized link; an absolute link is kept; a relative link goes through
`urljoin` and becomes absolute. -/
theorem url_resolution_behavior_witness :
    (mkRecord subtitrariCfg "tt1" 0 "/x" "A").url
      = makeAbsolute subtitrariCfg.baseUrl (linkOf (Element.anchor "/x" "A"))
    ∧ makeAbsolute subsroCfg.baseUrl "https://www.subs.ro/a"
        = "https://www.subs.ro/a"
    ∧ makeAbsolute titrariCfg.baseUrl "sub.srt"
        = urljoin titrariCfg.baseUrl "sub.srt"
    ∧ specAbsoluteUrl (makeAbsolute subtitrariCfg.baseUrl "/x") = true :=
  ⟨url_resolution_behavior.1 subtitrariCfg "tt1" 0 (Element.anchor "/x" "A")
      (mkRecord subtitrariCfg "tt1" 0 "/x" "A") rfl,
   url_resolution_behavior.2.1 subsroCfg.baseUrl "https://www.subs.ro/a"
     (by decide),
   url_resolution_behavior.2.2.1 titrariCfg.baseUrl "sub.srt" (by decide),
   url_resolution_behavior.2.2.2 subtitrariCfg (by decide) "/x"
     (by decide) rfl⟩

end RoSubs
